import Mathlib

/-!
# Pomodoro timer component

A shallow embedding of `src/pomodoro/Pomodoro.js`: the two module-level helpers
(`nextTick`, `nextSession`), the component state held in the five `useState`
cells, the interval callback, the click handlers with their `disabled`
attributes, and the three display helpers (`calcTimeRemaining`, `sessionTitle`,
`calcAria`).

Conventions of the embedding.

* The state cells `focusDuration`, `breakDuration` and `timeRemaining` hold
  non-negative integers in every state the handlers can produce; they are `Nat`
  (exact for JavaScript numbers below `2 ^ 53`).
* A React state setter that is given a function calls it with the pending state
  and stores what it returns. `setSession(nextSession(f, b))` therefore stores
  `nextSession(f, b)(session)`, while `setSession(() => nextTick)` stores the
  function object `nextTick` itself. The `session` cell can thus hold `null`, a
  session object, or that function object.
* A thrown `TypeError` is an `Except.error`.
* `new Audio(...).play()` has no effect on the component state and is left out.
-/

namespace Pomodoro

/-- The two values the `label` field of a session object ever receives:
the string literals `"Focusing"` and `"On Break"`. -/
inductive Label
  | Focusing
  | OnBreak
deriving DecidableEq, Repr

/-- The string a label stands for. -/
def Label.text : Label → String
  | .Focusing => "Focusing"
  | .OnBreak => "On Break"

/-- A session object `{ label, timeRemaining }`. -/
structure Session where
  label : Label
  timeRemaining : Nat
deriving DecidableEq, Repr

/-- What the `session` state cell can hold: `null` (initially and after stop),
a session object, or the function object `nextTick` that
`setSession(() => nextTick)` stores. -/
inductive SessionValue
  | null
  | active (cur : Session)
  | nextTickFn
deriving DecidableEq, Repr

/-- The JavaScript numbers the `aria` cell can receive from `calcAria`: a finite
quotient (kept exact), `NaN`, or `-Infinity`. -/
inductive JSNumber
  | finite (q : ℚ)
  | nan
  | negInfinity
deriving DecidableEq

/-- The component state: the five `useState` cells of `Pomodoro`. -/
structure PomodoroState where
  isTimerRunning : Bool
  session : SessionValue
  focusDuration : Nat
  breakDuration : Nat
  aria : JSNumber
deriving DecidableEq

/-- The state after mount: `useState(false)`, `useState(null)`, `useState(25)`,
`useState(5)`, `useState(0)`. -/
def initialState : PomodoroState :=
  { isTimerRunning := false, session := .null, focusDuration := 25,
    breakDuration := 5, aria := .finite 0 }

/-! ## Module-level helpers -/

/-- The helper `nextTick(prevState)`: a copy of `prevState` whose `timeRemaining` is
`Math.max(0, prevState.timeRemaining - 1)`. -/
def nextTick (prevState : Session) : Session :=
  { prevState with timeRemaining := Int.toNat (max 0 ((prevState.timeRemaining : Int) - 1)) }

/-- The helper `nextSession(focusDuration, breakDuration)`, applied to `currentSession`. -/
def nextSession (focusDuration breakDuration : Nat) (currentSession : Session) : Session :=
  if currentSession.label = Label.Focusing then
    { label := Label.OnBreak, timeRemaining := breakDuration * 60 }
  else
    { label := Label.Focusing, timeRemaining := focusDuration * 60 }

/-! ## Progress value -/

/-- The value `(duration * 60 - session.timeRemaining) / (duration * 60) * 100`,
where `timeRemaining` is `none` when the property read gives `undefined`
(the arithmetic is then `NaN`). A zero divisor gives `NaN` for `0 / 0` and
`-Infinity` for a negative dividend. -/
def ariaValue (duration : Nat) (timeRemaining : Option Nat) : JSNumber :=
  match timeRemaining with
  | none => .nan
  | some t =>
    if duration * 60 = 0 then
      if t = 0 then .nan else .negInfinity
    else
      .finite ((((duration * 60 : Nat) : ℚ) - (t : ℚ)) / ((duration * 60 : Nat) : ℚ) * 100)

/-- The function `calcAria(instance)` as called from the interval callback, where `instance`
and the closure variable `session` are the same value; `label` and
`timeRemaining` are the two property reads (`none` for `undefined`). The result
is the new content of the `aria` cell. -/
def calcAria (s : PomodoroState) (label : Option Label) (timeRemaining : Option Nat) : JSNumber :=
  if label = some Label.Focusing then
    ariaValue s.focusDuration timeRemaining
  else
    ariaValue s.breakDuration timeRemaining

/-- The range the progress bar declares: `aria-valuemin="0"`, `aria-valuemax="100"`. -/
def JSNumber.inProgressRange : JSNumber → Bool
  | .finite q => decide (0 ≤ q ∧ q ≤ 100)
  | .nan => false
  | .negInfinity => false

/-! ## Interval callback -/

/-- The callback passed to `useInterval`:
```
if (session.timeRemaining === 0) {
  new Audio(...).play();
  return setSession(nextSession(focusDuration, breakDuration));
}
setSession(() => nextTick);
calcAria(session);
```
Reading `timeRemaining` of `null` throws; of the function object it is
`undefined`, which is not `=== 0`. -/
def intervalCallback (s : PomodoroState) : Except String PomodoroState :=
  match s.session with
  | .null => .error "TypeError: Cannot read properties of null (reading 'timeRemaining')"
  | .active cur =>
    if cur.timeRemaining = 0 then
      .ok { s with session := .active (nextSession s.focusDuration s.breakDuration cur) }
    else
      .ok { s with session := .nextTickFn,
                   aria := calcAria s (some cur.label) (some cur.timeRemaining) }
  | .nextTickFn =>
    .ok { s with session := .nextTickFn, aria := calcAria s none none }

/-! ## Click handlers and their `disabled` attributes -/

/-- The handler `playPause()`: the running flag is negated; when it becomes true the session
updater replaces a `null` session by a fresh focusing session and keeps any
other value. -/
def playPause (s : PomodoroState) : PomodoroState :=
  let nextState := !s.isTimerRunning
  if nextState then
    { s with
      isTimerRunning := nextState
      session :=
        match s.session with
        | .null => .active { label := Label.Focusing, timeRemaining := s.focusDuration * 60 }
        | prevStateSession => prevStateSession }
  else
    { s with isTimerRunning := nextState }

/-- The stop button's `onClick`: `setSession(null); setIsTimerRunning(false)`. -/
def stop (s : PomodoroState) : PomodoroState :=
  { s with session := .null, isTimerRunning := false }

/-- The stop button's `disabled={!isTimerRunning}`. -/
def stopDisabled (s : PomodoroState) : Bool := !s.isTimerRunning

/-- The decrease-focus `onClick`: `if (focusDuration > 5) setFocusDuration(focusDuration - 5)`. -/
def decreaseFocus (s : PomodoroState) : PomodoroState :=
  if s.focusDuration > 5 then { s with focusDuration := s.focusDuration - 5 } else s

/-- The increase-focus `onClick`: `if (focusDuration < 60) setFocusDuration(focusDuration + 5)`. -/
def increaseFocus (s : PomodoroState) : PomodoroState :=
  if s.focusDuration < 60 then { s with focusDuration := s.focusDuration + 5 } else s

/-- The decrease-break `onClick`: `if (breakDuration > 1) setBreakDuration(breakDuration - 1)`. -/
def decreaseBreak (s : PomodoroState) : PomodoroState :=
  if s.breakDuration > 1 then { s with breakDuration := s.breakDuration - 1 } else s

/-- The increase-break `onClick`: `if (breakDuration < 15) setBreakDuration(breakDuration + 1)`. -/
def increaseBreak (s : PomodoroState) : PomodoroState :=
  if s.breakDuration < 15 then { s with breakDuration := s.breakDuration + 1 } else s

/-- The `disabled={isTimerRunning}` attribute shared by the four duration buttons. -/
def durationControlDisabled (s : PomodoroState) : Bool := s.isTimerRunning

/-- A click on a button: a disabled button does not run its handler. -/
def click (disabled : PomodoroState → Bool) (onClick : PomodoroState → PomodoroState)
    (s : PomodoroState) : PomodoroState :=
  if disabled s then s else onClick s

/-! ## Runs of the component -/

/-- The things that can happen to a mounted component. -/
inductive Event
  | decreaseFocus
  | increaseFocus
  | decreaseBreak
  | increaseBreak
  | playPause
  | stop
  | tick
deriving DecidableEq, Repr

/-- Modelled from the spec: `useInterval` (`src/utils/useInterval.js` is not
part of the sources) invokes the callback of the latest render once per period
while its delay argument, here `isTimerRunning ? 1000 : null`, is not `null`,
and never while it is `null`. -/
def intervalArmed (s : PomodoroState) : Bool := s.isTimerRunning

/-- One event. `none` when the event cannot happen in `s`: the button is
disabled, the interval is not armed, or the callback throws. -/
def step (s : PomodoroState) : Event → Option PomodoroState
  | .decreaseFocus => if durationControlDisabled s then none else some (decreaseFocus s)
  | .increaseFocus => if durationControlDisabled s then none else some (increaseFocus s)
  | .decreaseBreak => if durationControlDisabled s then none else some (decreaseBreak s)
  | .increaseBreak => if durationControlDisabled s then none else some (increaseBreak s)
  | .playPause => some (playPause s)
  | .stop => if stopDisabled s then none else some (stop s)
  | .tick =>
    if intervalArmed s then
      match intervalCallback s with
      | .ok s' => some s'
      | .error _ => none
    else none

/-- A sequence of events, first to last. -/
def run (s : PomodoroState) : List Event → Option PomodoroState
  | [] => some s
  | e :: es =>
    match step s e with
    | some s' => run s' es
    | none => none

/-- The ranges of the two durations: focus a multiple of 5 in `[5, 60]`, break in
`[1, 15]`. -/
def DurationsInRange (s : PomodoroState) : Prop :=
  5 ∣ s.focusDuration ∧ 5 ≤ s.focusDuration ∧ s.focusDuration ≤ 60 ∧
    1 ≤ s.breakDuration ∧ s.breakDuration ≤ 15

instance (s : PomodoroState) : Decidable (DurationsInRange s) := by
  unfold DurationsInRange
  infer_instance

/-- Every session object in the cell is a focusing one with time left. -/
def FocusingSession (s : PomodoroState) : Prop :=
  ∀ cur : Session, s.session = .active cur → cur.label = .Focusing ∧ 0 < cur.timeRemaining

/-! ## Display helpers -/

/-- The function `calcTimeRemaining(time)` for a non-negative integer `time`. When
`minutes < 10` the variable becomes the text `"0" + minutes`; the product
`minutes * 60` on the next line converts that text back to the same number. -/
def calcTimeRemaining (time : Nat) : String :=
  let minutes := time / 60
  let minutesText := if minutes < 10 then "0" ++ toString minutes else toString minutes
  let seconds := time - minutes * 60
  let secondsText := if seconds < 10 then "0" ++ toString seconds else toString seconds
  minutesText ++ ":" ++ secondsText

/-- The text of `session.label` inside a template literal: a `TypeError` for
`null`, `"undefined"` for the function object. -/
def sessionLabelText : SessionValue → Except String String
  | .null => .error "TypeError: Cannot read properties of null (reading 'label')"
  | .active cur => .ok cur.label.text
  | .nextTickFn => .ok "undefined"

/-- The function `sessionTitle(sessionType)`; `sessionType` is `none` for `undefined`, and
the result is `none` when the function falls off its end. -/
def sessionTitle (s : PomodoroState) (sessionType : Option Label) : Except String (Option String) :=
  match sessionType with
  | some Label.Focusing =>
    if s.focusDuration < 9 then
      (sessionLabelText s.session).map
        (fun l => some (l ++ " for 0" ++ toString s.focusDuration ++ ":00 minutes"))
    else
      (sessionLabelText s.session).map
        (fun l => some (l ++ " for " ++ toString s.focusDuration ++ ":00 minutes"))
  | some Label.OnBreak =>
    if s.breakDuration < 9 then
      (sessionLabelText s.session).map
        (fun l => some (l ++ " for 0" ++ toString s.breakDuration ++ ":00 minutes"))
    else
      (sessionLabelText s.session).map
        (fun l => some (l ++ " for " ++ toString s.breakDuration ++ ":00 minutes"))
  | none => .ok none

/-- The `label` property read of the session cell, as in `sessionTitle(session.label)`. -/
def sessionLabel : SessionValue → Except String (Option Label)
  | .null => .error "TypeError: Cannot read properties of null (reading 'label')"
  | .active cur => .ok (some cur.label)
  | .nextTickFn => .ok none

/-- The heading the render shows: `sessionTitle(session.label)`. -/
def renderedSessionTitle (s : PomodoroState) : Except String (Option String) :=
  match sessionLabel s.session with
  | .ok l => sessionTitle s l
  | .error e => .error e

/-! ## Reference definitions for the display formats -/

/-- Left-padding of a text with `'0'` to at least two characters. -/
def padTwo (text : String) : String :=
  String.mk (List.replicate (2 - text.length) '0') ++ text

/-- The `MM:SS` format: minutes `t / 60` and seconds `t % 60`, each in decimal
and padded to two digits, minutes not reduced modulo 60. -/
def formatMinutesSeconds (t : Nat) : String :=
  padTwo (toString (t / 60)) ++ ":" ++ padTwo (toString (t % 60))

/-- The session title format: label, `" for "`, the duration padded to two
digits, `":00 minutes"`. -/
def formatSessionTitle (label : Label) (duration : Nat) : String :=
  label.text ++ " for " ++ padTwo (toString duration) ++ ":00 minutes"

/-! ## The tick -/

/-- The helper `nextTick` itself decrements a positive `timeRemaining` by one and
keeps the label. -/
theorem nextTick_decrements (cur : Session) (h : 0 < cur.timeRemaining) :
    nextTick cur = { label := cur.label, timeRemaining := cur.timeRemaining - 1 } := by
  cases cur with
  | mk l t =>
    simp only [nextTick, Session.mk.injEq, true_and]
    simp only at h
    omega

/-- Whatever positive time remains, the callback stores the function object and
not a session object. -/
theorem intervalCallback_of_pos (s : PomodoroState) (cur : Session)
    (hs : s.session = .active cur) (h : cur.timeRemaining ≠ 0) :
    intervalCallback s =
      .ok { s with session := .nextTickFn,
                   aria := calcAria s (some cur.label) (some cur.timeRemaining) } := by
  simp [intervalCallback, hs, h]

/-- C1: evaluation of the code at the state right after the first play. The
state is reached from the initial state by one `playPause`; it is running with
session `{Focusing, 1500}`. One firing of the interval callback leaves the
`session` cell holding the function object `nextTick`, not the session
`{Focusing, 1499}` that `nextTick` would compute from it. -/
theorem tick_stores_nextTick_function :
    run initialState [Event.playPause] =
        some { isTimerRunning := true,
               session := .active { label := .Focusing, timeRemaining := 1500 },
               focusDuration := 25, breakDuration := 5, aria := .finite 0 } ∧
      step { isTimerRunning := true,
             session := .active { label := .Focusing, timeRemaining := 1500 },
             focusDuration := 25, breakDuration := 5, aria := .finite 0 } Event.tick =
        some { isTimerRunning := true, session := .nextTickFn,
               focusDuration := 25, breakDuration := 5, aria := .finite 0 } ∧
      nextTick { label := .Focusing, timeRemaining := 1500 } =
        { label := .Focusing, timeRemaining := 1499 } ∧
      SessionValue.nextTickFn ≠ .active { label := .Focusing, timeRemaining := 1499 } := by
  refine ⟨?_, ?_, ?_, ?_⟩
  · simp [run, step, playPause, initialState]
  · simp [step, intervalArmed, intervalCallback, calcAria, ariaValue]
  · simp [nextTick]
  · simp

/-- C2: in a running state whose session has no time left, one tick replaces the
session by `{OnBreak, breakDuration * 60}` when it was focusing and by
`{Focusing, focusDuration * 60}` when it was on break, and changes nothing else;
a second phase-exhaustion transition, under any durations, gives back the
original phase. -/
theorem tick_at_zero_switches_phase (s : PomodoroState) (cur : Session)
    (hrun : s.isTimerRunning = true) (hs : s.session = .active cur)
    (h0 : cur.timeRemaining = 0) :
    (cur.label = .Focusing →
        step s Event.tick =
          some { s with session := .active { label := .OnBreak,
                                             timeRemaining := s.breakDuration * 60 } }) ∧
      (cur.label = .OnBreak →
        step s Event.tick =
          some { s with session := .active { label := .Focusing,
                                             timeRemaining := s.focusDuration * 60 } }) ∧
      (∀ f b : Nat,
        (nextSession f b (nextSession s.focusDuration s.breakDuration cur)).label = cur.label) := by
  refine ⟨?_, ?_, ?_⟩
  · intro hl
    simp [step, intervalArmed, hrun, intervalCallback, hs, h0, nextSession, hl]
  · intro hl
    simp [step, intervalArmed, hrun, intervalCallback, hs, h0, nextSession, hl]
  · intro f b
    cases cur with
    | mk l t => cases l <;> simp [nextSession]

/-- Witness for C2: a running focusing session with no time left. -/
theorem tick_at_zero_switches_phase_witness :
    step { isTimerRunning := true,
           session := .active { label := .Focusing, timeRemaining := 0 },
           focusDuration := 25, breakDuration := 5, aria := .finite 0 } Event.tick =
      some { isTimerRunning := true,
             session := .active { label := .OnBreak, timeRemaining := 300 },
             focusDuration := 25, breakDuration := 5, aria := .finite 0 } :=
  (tick_at_zero_switches_phase
    { isTimerRunning := true,
      session := .active { label := .Focusing, timeRemaining := 0 },
      focusDuration := 25, breakDuration := 5, aria := .finite 0 }
    { label := .Focusing, timeRemaining := 0 } rfl rfl rfl).1 rfl

/-! ## Play, pause and stop -/

/-- C3: `playPause` negates the running flag and keeps both durations; the
session afterwards is `{Focusing, focusDuration * 60}` when it was `null` and the
flag becomes true, and in every other case is the session before. -/
theorem playPause_spec (s : PomodoroState) :
    (playPause s).isTimerRunning = !s.isTimerRunning ∧
      (playPause s).focusDuration = s.focusDuration ∧
      (playPause s).breakDuration = s.breakDuration ∧
      (s.session = .null → s.isTimerRunning = false →
        (playPause s).session =
          .active { label := .Focusing, timeRemaining := s.focusDuration * 60 }) ∧
      (¬ (s.session = .null ∧ s.isTimerRunning = false) →
        (playPause s).session = s.session) := by
  obtain ⟨r, sess, f, b, a⟩ := s
  cases r <;> cases sess <;> simp [playPause]

/-- C4: the stop handler, from any state, leaves `session = null` and
`isTimerRunning = false` and keeps both durations. -/
theorem stop_spec (s : PomodoroState) :
    (stop s).session = .null ∧ (stop s).isTimerRunning = false ∧
      (stop s).focusDuration = s.focusDuration ∧
      (stop s).breakDuration = s.breakDuration := by
  simp [stop]

/-! ## Duration controls -/

/-- C7: each of the four duration buttons is disabled exactly when the timer is
running. While it runs, a click on any of them changes neither duration; while
it does not run, whatever the session cell holds, a click runs the handler; the
attribute does not depend on the session cell. -/
theorem duration_controls_locked_iff_running (s : PomodoroState) :
    (durationControlDisabled s = true ↔ s.isTimerRunning = true) ∧
      (s.isTimerRunning = true →
        click durationControlDisabled decreaseFocus s = s ∧
        click durationControlDisabled increaseFocus s = s ∧
        click durationControlDisabled decreaseBreak s = s ∧
        click durationControlDisabled increaseBreak s = s) ∧
      (s.isTimerRunning = false →
        click durationControlDisabled decreaseFocus s = decreaseFocus s ∧
        click durationControlDisabled increaseFocus s = increaseFocus s ∧
        click durationControlDisabled decreaseBreak s = decreaseBreak s ∧
        click durationControlDisabled increaseBreak s = increaseBreak s) ∧
      (∀ v : SessionValue,
        durationControlDisabled { s with session := v } = durationControlDisabled s) := by
  refine ⟨Iff.rfl, ?_, ?_, ?_⟩
  · intro h
    simp [click, durationControlDisabled, h]
  · intro h
    simp [click, durationControlDisabled, h]
  · intro v
    rfl

/-! ## Invariants of runs -/

/-- A property that holds at the start of a run and is kept by every event holds
at its end. -/
theorem run_preserves (P : PomodoroState → Prop)
    (hstep : ∀ s e s', P s → step s e = some s' → P s')
    (evs : List Event) : ∀ s s', P s → run s evs = some s' → P s' := by
  induction evs with
  | nil =>
    intro s s' hP h
    simp only [run, Option.some.injEq] at h
    exact h ▸ hP
  | cons e es ih =>
    intro s s' hP h
    simp only [run] at h
    cases hse : step s e with
    | none => simp [hse] at h
    | some s1 =>
      rw [hse] at h
      exact ih s1 s' (hstep s e s1 hP hse) h

/-- What a successful firing of the callback leaves alone, and that it never
stores `null`. -/
theorem intervalCallback_frame (s s' : PomodoroState) (h : intervalCallback s = .ok s') :
    s'.isTimerRunning = s.isTimerRunning ∧ s'.focusDuration = s.focusDuration ∧
      s'.breakDuration = s.breakDuration ∧ s'.session ≠ .null := by
  obtain ⟨r, sess, f, b, a⟩ := s
  cases sess with
  | null => simp [intervalCallback] at h
  | active cur =>
    simp only [intervalCallback] at h
    split at h <;>
      · simp only [Except.ok.injEq] at h
        subst h
        simp
  | nextTickFn =>
    simp only [intervalCallback, Except.ok.injEq] at h
    subst h
    simp

/-- A tick happens only while the interval is armed, and is a successful firing
of the callback. -/
theorem step_tick (s s' : PomodoroState) (h : step s Event.tick = some s') :
    s.isTimerRunning = true ∧ intervalCallback s = .ok s' := by
  simp only [step, intervalArmed] at h
  split at h
  · rename_i hr
    refine ⟨hr, ?_⟩
    cases hc : intervalCallback s with
    | error e => simp [hc] at h
    | ok t =>
      simp only [hc, Option.some.injEq] at h
      rw [h]
  · simp at h

/-- Every event keeps: a running timer has a non-null session cell. -/
theorem step_keeps_session (s : PomodoroState) (e : Event) (s' : PomodoroState)
    (hP : s.isTimerRunning = true → s.session ≠ .null) (h : step s e = some s') :
    s'.isTimerRunning = true → s'.session ≠ .null := by
  cases e with
  | tick =>
    intro _
    exact (intervalCallback_frame s s' (step_tick s s' h).2).2.2.2
  | playPause =>
    simp only [step, Option.some.injEq] at h
    subst h
    obtain ⟨r, sess, f, b, a⟩ := s
    cases r <;> cases sess <;> simp_all [playPause]
  | stop =>
    simp only [step, stopDisabled, stop] at h
    split at h
    · simp at h
    · simp only [Option.some.injEq] at h
      subst h
      simp
  | decreaseFocus =>
    simp only [step, durationControlDisabled, decreaseFocus] at h
    split at h
    · simp at h
    · rename_i hr
      simp only [Option.some.injEq] at h
      subst h
      intro h1
      split at h1 <;> simp_all
  | increaseFocus =>
    simp only [step, durationControlDisabled, increaseFocus] at h
    split at h
    · simp at h
    · rename_i hr
      simp only [Option.some.injEq] at h
      subst h
      intro h1
      split at h1 <;> simp_all
  | decreaseBreak =>
    simp only [step, durationControlDisabled, decreaseBreak] at h
    split at h
    · simp at h
    · rename_i hr
      simp only [Option.some.injEq] at h
      subst h
      intro h1
      split at h1 <;> simp_all
  | increaseBreak =>
    simp only [step, durationControlDisabled, increaseBreak] at h
    split at h
    · simp at h
    · rename_i hr
      simp only [Option.some.injEq] at h
      subst h
      intro h1
      split at h1 <;> simp_all

/-- Every event keeps the two durations in their ranges. -/
theorem step_keeps_durations (s : PomodoroState) (e : Event) (s' : PomodoroState)
    (hP : DurationsInRange s) (h : step s e = some s') : DurationsInRange s' := by
  obtain ⟨r, sess, f, b, a⟩ := s
  obtain ⟨h5, hf1, hf2, hb1, hb2⟩ := hP
  simp only at h5 hf1 hf2 hb1 hb2
  have key : ∀ t : PomodoroState, t.focusDuration = f → t.breakDuration = b →
      DurationsInRange t := by
    intro t e1 e2
    simp only [DurationsInRange, e1, e2]
    exact ⟨h5, hf1, hf2, hb1, hb2⟩
  cases e with
  | decreaseFocus =>
    simp only [step, durationControlDisabled, decreaseFocus] at h
    split at h
    · simp at h
    · simp only [Option.some.injEq] at h
      subst h
      split
      · simp only [DurationsInRange]
        refine ⟨?_, ?_, ?_, hb1, hb2⟩ <;> omega
      · exact key _ rfl rfl
  | increaseFocus =>
    simp only [step, durationControlDisabled, increaseFocus] at h
    split at h
    · simp at h
    · simp only [Option.some.injEq] at h
      subst h
      split
      · simp only [DurationsInRange]
        refine ⟨?_, ?_, ?_, hb1, hb2⟩ <;> omega
      · exact key _ rfl rfl
  | decreaseBreak =>
    simp only [step, durationControlDisabled, decreaseBreak] at h
    split at h
    · simp at h
    · simp only [Option.some.injEq] at h
      subst h
      split
      · simp only [DurationsInRange]
        refine ⟨h5, hf1, hf2, ?_, ?_⟩ <;> omega
      · exact key _ rfl rfl
  | increaseBreak =>
    simp only [step, durationControlDisabled, increaseBreak] at h
    split at h
    · simp at h
    · simp only [Option.some.injEq] at h
      subst h
      split
      · simp only [DurationsInRange]
        refine ⟨h5, hf1, hf2, ?_, ?_⟩ <;> omega
      · exact key _ rfl rfl
  | playPause =>
    simp only [step, Option.some.injEq] at h
    subst h
    apply key <;> cases r <;> simp [playPause]
  | stop =>
    simp only [step, stopDisabled, stop] at h
    split at h
    · simp at h
    · simp only [Option.some.injEq] at h
      subst h
      exact key _ rfl rfl
  | tick =>
    obtain ⟨_, e1, e2, _⟩ := intervalCallback_frame _ s' (step_tick _ s' h).2
    exact key s' e1 e2

/-! ## Decimal text of a number -/

/-- One unfolding of the digit loop behind `toString` on `Nat`. -/
theorem toDigitsCore_succ (f n : Nat) (acc : List Char) :
    Nat.toDigitsCore 10 (f + 1) n acc =
      if n / 10 = 0 then (n % 10).digitChar :: acc
      else Nat.toDigitsCore 10 f (n / 10) ((n % 10).digitChar :: acc) := by
  simp only [Nat.toDigitsCore]

/-- The digit loop never shortens its accumulator. -/
theorem toDigitsCore_length_ge (f : Nat) : ∀ (n : Nat) (acc : List Char),
    acc.length ≤ (Nat.toDigitsCore 10 f n acc).length := by
  induction f with
  | zero => intro n acc; simp [Nat.toDigitsCore]
  | succ f ih =>
    intro n acc
    rw [toDigitsCore_succ]
    split
    · simp
    · exact Nat.le_trans (by simp) (ih (n / 10) _)

/-- With fuel left the digit loop adds at least one digit. -/
theorem toDigitsCore_length_gt (f n : Nat) (acc : List Char) :
    acc.length + 1 ≤ (Nat.toDigitsCore 10 (f + 1) n acc).length := by
  rw [toDigitsCore_succ]
  split
  · simp
  · exact Nat.le_trans (by simp) (toDigitsCore_length_ge f (n / 10) _)

/-- A number from ten on prints with at least two digits. -/
theorem two_le_toString_length (n : Nat) (h : 10 ≤ n) : 2 ≤ (toString n).length := by
  show 2 ≤ (Nat.repr n).length
  obtain ⟨k, rfl⟩ : ∃ k, n = k + 1 := ⟨n - 1, by omega⟩
  have hne : ¬ (k + 1) / 10 = 0 := by omega
  simp only [Nat.repr, Nat.toDigits, String.length, List.asString]
  rw [toDigitsCore_succ, if_neg hne]
  have h1 := toDigitsCore_length_gt k ((k + 1) / 10) [((k + 1) % 10).digitChar]
  simpa using h1

/-- A number below ten prints with one digit. -/
theorem toString_length_of_lt (n : Nat) (h : n < 10) : (toString n).length = 1 := by
  interval_cases n <;> rfl

/-- Padding a one-digit number puts one `'0'` in front. -/
theorem padTwo_of_lt (n : Nat) (h : n < 10) : padTwo (toString n) = "0" ++ toString n := by
  simp only [padTwo, toString_length_of_lt n h]
  rfl

/-- Padding a number from ten on changes nothing. -/
theorem padTwo_of_ge (n : Nat) (h : 10 ≤ n) : padTwo (toString n) = toString n := by
  have h2 := two_le_toString_length n h
  have : 2 - (toString n).length = 0 := by omega
  simp only [padTwo, this, List.replicate]
  simp

/-! ## Claims about runs -/

/-- C5: in every state reached from the initial state by events that can happen
(clicks on enabled buttons, ticks while the interval is armed), a running timer
has a non-null session cell; hence the callback, whenever the interval is armed,
reads `timeRemaining` without throwing, and the stop button is enabled only
with a non-null session cell. -/
theorem running_implies_session (evs : List Event) (s : PomodoroState)
    (h : run initialState evs = some s) :
    (s.isTimerRunning = true → s.session ≠ .null) ∧
      (intervalArmed s = true → ∃ s', intervalCallback s = .ok s') ∧
      (stopDisabled s = false → s.session ≠ .null) := by
  have inv : s.isTimerRunning = true → s.session ≠ .null :=
    run_preserves (fun t => t.isTimerRunning = true → t.session ≠ .null)
      step_keeps_session evs initialState s (by simp [initialState]) h
  refine ⟨inv, ?_, ?_⟩
  · intro ha
    have hne := inv ha
    obtain ⟨r, sess, f, b, a⟩ := s
    cases sess with
    | null => exact absurd rfl hne
    | active cur =>
      by_cases h0 : cur.timeRemaining = 0
      · simp only [intervalCallback, h0, if_true]
        exact ⟨_, rfl⟩
      · simp only [intervalCallback, h0, if_false]
        exact ⟨_, rfl⟩
    | nextTickFn => exact ⟨_, rfl⟩
  · intro hd
    apply inv
    simpa [stopDisabled] using hd

/-- Witness for C5: the state after play and one tick, which is running, holds
the function object in its session cell, and can tick again. -/
theorem running_implies_session_witness :
    run initialState [Event.playPause, Event.tick] =
        some { isTimerRunning := true, session := .nextTickFn, focusDuration := 25,
               breakDuration := 5, aria := .finite 0 } ∧
      SessionValue.nextTickFn ≠ .null ∧
      ∃ s', intervalCallback
          { isTimerRunning := true, session := .nextTickFn, focusDuration := 25,
            breakDuration := 5, aria := .finite 0 } = .ok s' :=
  have hrun : run initialState [Event.playPause, Event.tick] =
      some { isTimerRunning := true, session := .nextTickFn, focusDuration := 25,
             breakDuration := 5, aria := .finite 0 } := by
    simp [run, step, playPause, initialState, intervalArmed, intervalCallback, calcAria,
      ariaValue]
  ⟨hrun, (running_implies_session _ _ hrun).1 rfl, (running_implies_session _ _ hrun).2.1 rfl⟩

/-- C6: while the timer is not running, a click on increase-focus turns a focus
duration `f` that is a multiple of 5 in `[5, 60]` into `min (f + 5) 60` and a
click on decrease-focus turns it into `max (f - 5) 5`; a click on increase-break
turns a break duration `b` in `[1, 15]` into `min (b + 1) 15` and a click on
decrease-break turns it into `max (b - 1) 1`; a click at the bound changes
nothing; and every state reached from the initial state has a focus duration
that is a multiple of 5 in `[5, 60]` and a break duration in `[1, 15]`. -/
theorem duration_adjustments (s : PomodoroState) (hpaused : s.isTimerRunning = false) :
    (5 ∣ s.focusDuration → 5 ≤ s.focusDuration → s.focusDuration ≤ 60 →
        (click durationControlDisabled increaseFocus s).focusDuration
            = min (s.focusDuration + 5) 60 ∧
          (click durationControlDisabled decreaseFocus s).focusDuration
            = max (s.focusDuration - 5) 5) ∧
      (1 ≤ s.breakDuration → s.breakDuration ≤ 15 →
        (click durationControlDisabled increaseBreak s).breakDuration
            = min (s.breakDuration + 1) 15 ∧
          (click durationControlDisabled decreaseBreak s).breakDuration
            = max (s.breakDuration - 1) 1) ∧
      (s.focusDuration = 60 → click durationControlDisabled increaseFocus s = s) ∧
      (s.focusDuration = 5 → click durationControlDisabled decreaseFocus s = s) ∧
      (s.breakDuration = 15 → click durationControlDisabled increaseBreak s = s) ∧
      (s.breakDuration = 1 → click durationControlDisabled decreaseBreak s = s) ∧
      (∀ (evs : List Event) (t : PomodoroState),
        run initialState evs = some t → DurationsInRange t) := by
  refine ⟨?_, ?_, ?_, ?_, ?_, ?_, ?_⟩
  · intro h5 h1 h2
    simp only [click, durationControlDisabled, hpaused, Bool.false_eq_true, if_false,
      increaseFocus, decreaseFocus]
    constructor
    · split
      · simp only
        omega
      · omega
    · split
      · simp only
        omega
      · omega
  · intro h1 h2
    simp only [click, durationControlDisabled, hpaused, Bool.false_eq_true, if_false,
      increaseBreak, decreaseBreak]
    constructor
    · split
      · simp only
        omega
      · omega
    · split
      · simp only
        omega
      · omega
  · intro h
    simp [click, durationControlDisabled, hpaused, increaseFocus, h]
  · intro h
    simp [click, durationControlDisabled, hpaused, decreaseFocus, h]
  · intro h
    simp [click, durationControlDisabled, hpaused, increaseBreak, h]
  · intro h
    simp [click, durationControlDisabled, hpaused, decreaseBreak, h]
  · intro evs t ht
    exact run_preserves DurationsInRange step_keeps_durations evs initialState t
      (by simp only [DurationsInRange, initialState]; decide) ht

/-- Witness for C6: the initial state, where increase-focus gives 30 and
decrease-focus gives 20. -/
theorem duration_adjustments_witness :
    initialState.isTimerRunning = false ∧
      (click durationControlDisabled increaseFocus initialState).focusDuration = 30 ∧
      (click durationControlDisabled decreaseFocus initialState).focusDuration = 20 :=
  ⟨rfl, (duration_adjustments initialState rfl).1 (by decide) (by decide) (by decide)⟩

/-- C8: two runs from the initial state after which the `aria` cell is outside
the declared range `[0, 100]`. Play, pause, one decrease of the focus duration,
play, one tick: the cell holds `(20 * 60 - 1500) / (20 * 60) * 100 = -25`.
Play and two ticks: the second tick reads `timeRemaining` of the function
object stored by the first, and the cell holds `NaN`. -/
theorem aria_leaves_declared_range :
    (∃ s, run initialState
            [Event.playPause, Event.playPause, Event.decreaseFocus, Event.playPause,
             Event.tick] = some s ∧
          s.aria = .finite (-25) ∧ s.aria.inProgressRange = false) ∧
      (∃ s, run initialState [Event.playPause, Event.tick, Event.tick] = some s ∧
          s.aria = .nan ∧ s.aria.inProgressRange = false) := by
  constructor
  · refine ⟨{ isTimerRunning := true, session := .nextTickFn, focusDuration := 20,
              breakDuration := 5, aria := .finite (-25) }, ?_, rfl, ?_⟩
    · simp [run, step, playPause, initialState, durationControlDisabled, decreaseFocus,
        intervalArmed, intervalCallback, calcAria, ariaValue]
      norm_num
    · simp [JSNumber.inProgressRange]
  · refine ⟨{ isTimerRunning := true, session := .nextTickFn, focusDuration := 25,
              breakDuration := 5, aria := .nan }, ?_, rfl, ?_⟩
    · simp [run, step, playPause, initialState, intervalArmed, intervalCallback, calcAria,
        ariaValue]
    · simp [JSNumber.inProgressRange]

/-! ## Display formats -/

/-- C9: for every non-negative integer `t`, `calcTimeRemaining t` is `t / 60` in
decimal padded with `'0'` to at least two digits, a colon, and `t % 60` in
decimal padded to two digits (the seconds field is exactly two characters), the
minutes not reduced modulo 60; 0, 65, 125 and 3600 give `"00:00"`, `"01:05"`,
`"02:05"` and `"60:00"`. -/
theorem calcTimeRemaining_format (t : Nat) :
    calcTimeRemaining t = formatMinutesSeconds t ∧
      (padTwo (toString (t % 60))).length = 2 ∧
      calcTimeRemaining 0 = "00:00" ∧ calcTimeRemaining 65 = "01:05" ∧
      calcTimeRemaining 125 = "02:05" ∧ calcTimeRemaining 3600 = "60:00" := by
  refine ⟨?_, ?_, by decide, by decide, by decide, by decide⟩
  · have hsec : t - t / 60 * 60 = t % 60 := by omega
    simp only [calcTimeRemaining, formatMinutesSeconds, hsec]
    by_cases hm : t / 60 < 10 <;> by_cases hs : t % 60 < 10
    · rw [if_pos hm, if_pos hs, padTwo_of_lt _ hm, padTwo_of_lt _ hs]
    · rw [if_pos hm, if_neg hs, padTwo_of_lt _ hm, padTwo_of_ge _ (by omega)]
    · rw [if_neg hm, if_pos hs, padTwo_of_ge _ (by omega), padTwo_of_lt _ hs]
    · rw [if_neg hm, if_neg hs, padTwo_of_ge _ (by omega), padTwo_of_ge _ (by omega)]
  · have hlt : t % 60 < 60 := Nat.mod_lt _ (by decide)
    generalize t % 60 = r at hlt
    interval_cases r <;> decide

/-- The title is the padded format for every focus duration other than 9 and,
on break, every break duration other than 9. -/
theorem sessionTitle_padded (s : PomodoroState) (cur : Session)
    (hs : s.session = .active cur)
    (hd : (if cur.label = .Focusing then s.focusDuration else s.breakDuration) ≠ 9) :
    renderedSessionTitle s =
      .ok (some (formatSessionTitle cur.label
        (if cur.label = .Focusing then s.focusDuration else s.breakDuration))) := by
  obtain ⟨l, t⟩ := cur
  cases l with
  | Focusing =>
    simp only [if_true] at hd
    simp only [renderedSessionTitle, sessionLabel, hs, sessionTitle, sessionLabelText,
      formatSessionTitle, if_true]
    by_cases h9 : s.focusDuration < 9
    · rw [if_pos h9, padTwo_of_lt _ (by omega)]
      have hsplit : ∀ x : String, " for 0" ++ x = " for " ++ ("0" ++ x) := by
        intro x
        rw [← String.append_assoc]
        rfl
      simp [Except.map, String.append_assoc, hsplit]
    · rw [if_neg h9, padTwo_of_ge _ (by omega)]
      simp [Except.map]
  | OnBreak =>
    simp only [reduceCtorEq, if_false] at hd
    simp only [renderedSessionTitle, sessionLabel, hs, sessionTitle, sessionLabelText,
      formatSessionTitle, reduceCtorEq, if_false]
    by_cases h9 : s.breakDuration < 9
    · rw [if_pos h9, padTwo_of_lt _ (by omega)]
      have hsplit : ∀ x : String, " for 0" ++ x = " for " ++ ("0" ++ x) := by
        intro x
        rw [← String.append_assoc]
        rfl
      simp [Except.map, String.append_assoc, hsplit]
    · rw [if_neg h9, padTwo_of_ge _ (by omega)]
      simp [Except.map]

/-- Every event keeps: a session object in the cell is focusing with time left. -/
theorem step_keeps_focusing (s : PomodoroState) (e : Event) (s' : PomodoroState)
    (hP : DurationsInRange s ∧ FocusingSession s) (h : step s e = some s') :
    DurationsInRange s' ∧ FocusingSession s' := by
  refine ⟨step_keeps_durations s e s' hP.1 h, ?_⟩
  obtain ⟨⟨_, hf1, _, _, _⟩, hF⟩ := hP
  have same : s'.session = s.session → FocusingSession s' := by
    intro hsame cur hcur
    exact hF cur (hsame ▸ hcur)
  cases e with
  | tick =>
    obtain ⟨_, hcb⟩ := step_tick s s' h
    obtain ⟨r, sess, f, b, a⟩ := s
    cases sess with
    | null => simp [intervalCallback] at hcb
    | active cur =>
      have hpos := (hF cur rfl).2
      have hne : cur.timeRemaining ≠ 0 := by omega
      simp only [intervalCallback, hne, if_false, Except.ok.injEq] at hcb
      subst hcb
      intro c hc
      simp at hc
    | nextTickFn =>
      simp only [intervalCallback, Except.ok.injEq] at hcb
      subst hcb
      intro c hc
      simp at hc
  | playPause =>
    simp only [step, Option.some.injEq] at h
    subst h
    obtain ⟨r, sess, f, b, a⟩ := s
    cases r with
    | true => exact same (by simp [playPause])
    | false =>
      cases sess with
      | null =>
        intro c hc
        simp only [playPause, Bool.not_false, if_true, SessionValue.active.injEq] at hc
        subst hc
        simp only at hf1
        exact ⟨rfl, by simp only; omega⟩
      | active cur => exact same (by simp [playPause])
      | nextTickFn => exact same (by simp [playPause])
  | stop =>
    simp only [step, stopDisabled, stop] at h
    split at h
    · simp at h
    · simp only [Option.some.injEq] at h
      subst h
      intro c hc
      simp at hc
  | decreaseFocus =>
    simp only [step, durationControlDisabled, decreaseFocus] at h
    split at h
    · simp at h
    · simp only [Option.some.injEq] at h
      subst h
      apply same
      split <;> rfl
  | increaseFocus =>
    simp only [step, durationControlDisabled, increaseFocus] at h
    split at h
    · simp at h
    · simp only [Option.some.injEq] at h
      subst h
      apply same
      split <;> rfl
  | decreaseBreak =>
    simp only [step, durationControlDisabled, decreaseBreak] at h
    split at h
    · simp at h
    · simp only [Option.some.injEq] at h
      subst h
      apply same
      split <;> rfl
  | increaseBreak =>
    simp only [step, durationControlDisabled, increaseBreak] at h
    split at h
    · simp at h
    · simp only [Option.some.injEq] at h
      subst h
      apply same
      split <;> rfl

/-- In every state reached from the initial state, a session object in the cell
is a focusing one with time left, and the heading rendered for it is the padded
format. -/
theorem reachable_title_padded (evs : List Event) (s : PomodoroState) (cur : Session)
    (h : run initialState evs = some s) (hs : s.session = .active cur) :
    cur.label = .Focusing ∧ 0 < cur.timeRemaining ∧
      renderedSessionTitle s = .ok (some (formatSessionTitle .Focusing s.focusDuration)) := by
  have inv : DurationsInRange s ∧ FocusingSession s :=
    run_preserves (fun t => DurationsInRange t ∧ FocusingSession t) step_keeps_focusing
      evs initialState s
      ⟨by simp only [DurationsInRange, initialState]; decide,
       by intro c hc; simp [initialState] at hc⟩ h
  obtain ⟨⟨h5, _, _, _, _⟩, hF⟩ := inv
  obtain ⟨hl, ht⟩ := hF cur hs
  refine ⟨hl, ht, ?_⟩
  have hpad := sessionTitle_padded s cur hs (by rw [if_pos hl]; omega)
  rw [hl] at hpad
  simpa using hpad

/-- C10, as stated, fails at a break duration of 9: for the on-break session
`{On Break, 540}` with `breakDuration = 9`, which lies in `[1, 15]`,
`sessionTitle` returns `"On Break for 9:00 minutes"`, while the duration padded
to two digits gives `"On Break for 09:00 minutes"`. -/
theorem sessionTitle_break_nine_unpadded :
    (1 ≤ 9 ∧ 9 ≤ 15) ∧
      sessionTitle
          { isTimerRunning := true,
            session := .active { label := .OnBreak, timeRemaining := 540 },
            focusDuration := 25, breakDuration := 9, aria := .finite 0 }
          (some Label.OnBreak) =
        .ok (some "On Break for 9:00 minutes") ∧
      formatSessionTitle .OnBreak 9 = "On Break for 09:00 minutes" ∧
      sessionTitle
          { isTimerRunning := true,
            session := .active { label := .OnBreak, timeRemaining := 540 },
            focusDuration := 25, breakDuration := 9, aria := .finite 0 }
          (some Label.OnBreak) ≠
        .ok (some (formatSessionTitle .OnBreak 9)) := by
  have hcode : sessionTitle
      { isTimerRunning := true,
        session := .active { label := .OnBreak, timeRemaining := 540 },
        focusDuration := 25, breakDuration := 9, aria := .finite 0 }
      (some Label.OnBreak) = .ok (some "On Break for 9:00 minutes") := rfl
  refine ⟨by decide, hcode, by decide, ?_⟩
  rw [hcode]
  intro hEq
  simp only [Except.ok.injEq, Option.some.injEq] at hEq
  revert hEq
  decide

/-- C10, amended: for every session object with label Focusing and every focus
duration that is a multiple of 5 in `[5, 60]`, and for every session object with
label On Break and every break duration in `[1, 15]` other than 9,
`sessionTitle`, called on the session's label as the render does, returns the
label, `" for "`, the configured duration of that phase in decimal padded with
`'0'` to two digits, and `":00 minutes"`. -/
theorem sessionTitle_format (s : PomodoroState) (cur : Session)
    (hs : s.session = .active cur)
    (hfocus : cur.label = .Focusing →
      5 ∣ s.focusDuration ∧ 5 ≤ s.focusDuration ∧ s.focusDuration ≤ 60)
    (hbreak : cur.label = .OnBreak →
      1 ≤ s.breakDuration ∧ s.breakDuration ≤ 15 ∧ s.breakDuration ≠ 9) :
    sessionTitle s (some cur.label) =
        .ok (some (formatSessionTitle cur.label
          (if cur.label = .Focusing then s.focusDuration else s.breakDuration))) ∧
      renderedSessionTitle s = sessionTitle s (some cur.label) := by
  have hrender : renderedSessionTitle s = sessionTitle s (some cur.label) := by
    simp [renderedSessionTitle, sessionLabel, hs]
  refine ⟨?_, hrender⟩
  rw [← hrender]
  apply sessionTitle_padded s cur hs
  by_cases hl : cur.label = .Focusing
  · rw [if_pos hl]
    have := hfocus hl
    omega
  · rw [if_neg hl]
    have hb : cur.label = .OnBreak := by
      cases hc : cur.label with
      | Focusing => exact absurd hc hl
      | OnBreak => rfl
    exact (hbreak hb).2.2

/-- Witness for C10: an on-break session with a break duration of 8, whose title
is `"On Break for 08:00 minutes"`. -/
theorem sessionTitle_format_witness :
    sessionTitle
        { isTimerRunning := true,
          session := .active { label := .OnBreak, timeRemaining := 480 },
          focusDuration := 25, breakDuration := 8, aria := .finite 0 }
        (some Label.OnBreak) =
      .ok (some "On Break for 08:00 minutes") :=
  (sessionTitle_format
    { isTimerRunning := true,
      session := .active { label := .OnBreak, timeRemaining := 480 },
      focusDuration := 25, breakDuration := 8, aria := .finite 0 }
    { label := .OnBreak, timeRemaining := 480 } rfl
    (fun hl => absurd hl (by decide))
    (fun _ => ⟨by decide, by decide, by decide⟩)).1

end Pomodoro
